import Mathlib

/-
Shallow embedding of the waveform editing core of the Epoch123 audio
manager (src/Epoch123/PlotWidget.py and src/Epoch123/SoundEditor.py).

Sample buffers are modelled as lists of rationals (the Python code works
on 1-d numpy arrays of floats; all claims are exact-arithmetic claims).
The external numerical collaborators (scipy.signal / numpy.fft) are
abstracted as parameters, see `DSP` below; everything written in the
repository itself is translated directly.

Stacks: a Python list used with `append`/`pop` is a stack whose top is
the last element; we model it as a Lean list whose HEAD is the top, so
`append` becomes cons at the head and `pop` removes the head.
-/

namespace Epoch123

/-- Python `int()` applied to a rational: truncation toward zero.  This is
also what `numpy`'s `.astype(int)` does to each element. -/
def pyInt (q : ℚ) : ℤ := Int.tdiv q.num q.den

/-- Normalisation of one bound of a Python slice `xs[a:b]` for a sequence of
length `n`: a negative index counts from the end, and both bounds are clamped
into `[0, n]`. -/
def sliceIdx (n : ℕ) (i : ℤ) : ℕ :=
  if i < 0 then ((n : ℤ) + i).toNat else min i.toNat n

/-- Python slice `xs[a:b]` (both bounds explicit). -/
def pySlice {α : Type} (xs : List α) (a b : ℤ) : List α :=
  (xs.take (sliceIdx xs.length b)).drop (sliceIdx xs.length a)

/-- `np.max(np.abs(l))` over a sample buffer.  The source only applies it to
non-empty buffers; seeding the fold with `0` agrees with `np.max` there
because absolute values are non-negative. -/
def maxAbs (l : List ℚ) : ℚ := (l.map (fun x => |x|)).foldr max 0

/-- One entry of `PlotWidget.undo_stack` / `redo_stack`.  Most push sites
append a tuple `(np.copy(data), self.ax.get_xlim())`, modelled by `pair`;
`zoom_out` (PlotWidget.py 235-236) appends the bare sample array itself,
modelled by `bare`. -/
inductive HistEntry where
  | pair (snapshot : List ℚ) (view : ℚ × ℚ)
  | bare (snapshot : List ℚ)
deriving DecidableEq

/-- Combined state of the editing core after a file has been loaded:
`SoundEditor.audio_data` (the editor's own reference to the buffer),
`PlotWidget.data` (the plotted buffer), the x-limits of the plot axes,
`PlotWidget.selected_region`, the two history stacks, and the
`AudioPlayer` fields written by the widget (`audio_data` given to
`set_audio_data`, and `initial_frame`).  Cosmetic state (ticks, canvas,
position line, sample rate) carries no claim content and is omitted. -/
structure EState where
  audio_data : Option (List ℚ)
  data : List ℚ
  view : ℚ × ℚ
  selected_region : Option (ℚ × ℚ)
  undo_stack : List HistEntry
  redo_stack : List HistEntry
  player_data : List ℚ
  initial_frame : ℤ
deriving DecidableEq

/-- External numerical collaborators, abstracted.  `ff i` is the value of a
successful `scipy.signal.filtfilt(b, a, x)` call for the Butterworth design
selected by combobox index `i`; `fft`/`ifft` are `numpy.fft.fft`/`ifft` over
an abstract type `K` of complex spectrum values with zero element `zeroK`,
and `re` takes the real part.  Their defining mathematical properties
(e.g. that `ifft` inverts `fft`) enter theorems as explicit hypotheses. -/
structure DSP (K : Type) where
  zeroK : K
  fft : List ℚ → List K
  ifft : List K → List K
  re : K → ℚ
  ff : ℕ → List ℚ → List ℚ

/-- PlotWidget.update_plot (PlotWidget.py 95-114): stores the new buffer and
resets the x-limits to `(0, len(data))` (line 109).  Ticks, canvas redraw and
the span selector reset are cosmetic.  It touches neither the selection nor
the player. -/
def update_plot (s : EState) (d : List ℚ) : EState :=
  { s with data := d, view := (0, (d.length : ℚ)) }

/-- PlotWidget.clear_selection (PlotWidget.py 156-165): drops the selection
and hands the full plotted buffer back to the audio player.  (It does not
reset `initial_frame`; the source never does.) -/
def clear_selection (s : EState) : EState :=
  { s with selected_region := none, player_data := s.data }

/-- PlotWidget.on_select (PlotWidget.py 136-154), the SpanSelector callback.
If the span is wider than one display unit the region is stored as given
(no clamping, no swapping), the player receives `data[int(xmin):int(xmax)]`
and its initial frame becomes `int(xmin)`; otherwise the selection is
cleared. -/
def on_select (s : EState) (xmin xmax : ℚ) : EState :=
  if 1 < xmax - xmin then
    { s with selected_region := some (xmin, xmax),
             player_data := pySlice s.data (pyInt xmin) (pyInt xmax),
             initial_frame := pyInt xmin }
  else clear_selection s

/-- PlotWidget.zoom_out (PlotWidget.py 230-239): sets the x-limits to the
full buffer extent, appends the bare live array to BOTH stacks (lines
235-236: `self.undo_stack.append(self.data)`, `self.redo_stack.append(self.data)`),
then clears the selection.  The `data is not None` guard always holds once a
file is loaded, which every claim presupposes. -/
def zoom_out (s : EState) : EState :=
  clear_selection
    { s with view := (0, (s.data.length : ℚ)),
             undo_stack := .bare s.data :: s.undo_stack,
             redo_stack := .bare s.data :: s.redo_stack }

/-- PlotWidget.zoom_into_selected (PlotWidget.py 241-249): pushes
`(np.copy(data), old x-limits)` onto the undo stack, zooms to the selected
region, and clears the selection.  No-op without a selection. -/
def zoom_into_selected (s : EState) : EState :=
  match s.selected_region with
  | none => s
  | some (xmin, xmax) =>
      clear_selection
        { s with undo_stack := .pair s.data s.view :: s.undo_stack,
                 view := (xmin, xmax) }

/-- PlotWidget.crop_selected (PlotWidget.py 251-258): pushes
`(np.copy(data), x-limits)`, replaces the buffer by
`data[int(xmin):int(xmax)]`, clears the selection (which hands the new
buffer to the player), and re-renders (which resets the view).  No-op
without a selection. -/
def crop_selected (s : EState) : EState :=
  match s.selected_region with
  | none => s
  | some (xmin, xmax) =>
      let s1 := { s with undo_stack := .pair s.data s.view :: s.undo_stack }
      let s2 := { s1 with data := pySlice s1.data (pyInt xmin) (pyInt xmax) }
      update_plot (clear_selection s2) s2.data

/-- PlotWidget.crop_unselected (PlotWidget.py 260-267): like `crop_selected`
but keeps `np.concatenate((data[:int(xmin)], data[int(xmax):]))`. -/
def crop_unselected (s : EState) : EState :=
  match s.selected_region with
  | none => s
  | some (xmin, xmax) =>
      let s1 := { s with undo_stack := .pair s.data s.view :: s.undo_stack }
      let nd := pySlice s1.data 0 (pyInt xmin) ++ pySlice s1.data (pyInt xmax) (s1.data.length : ℤ)
      let s2 := { s1 with data := nd }
      update_plot (clear_selection s2) s2.data

/-- PlotWidget.push_state (PlotWidget.py 269-273): pushes
`(np.copy(data), x-limits)` and clears the redo stack.  NOTE: no call site
in the repository invokes this method; the mutating operations all append
to `undo_stack` directly. -/
def push_state (s : EState) (d : List ℚ) : EState :=
  { s with undo_stack := .pair d s.view :: s.undo_stack, redo_stack := [] }

/-- The exception class escaping an undo/redo step uncaught. -/
inductive PyExc where
  | typeError
  | valueError
deriving DecidableEq

/-- Observable widget state at the moment an uncaught exception propagates
out of `undo_last_action`/`redo_last_action`: the history stacks, the scalar
that `self.data` was overwritten with (when the tuple unpacking of a bare
2-element array succeeded element-wise), and the x-limits.  Fields of the
widget not listed here are unchanged by the failing call. -/
structure CrashState where
  exc : PyExc
  dataScalar : Option ℚ
  view : ℚ × ℚ
  undo_stack : List HistEntry
  redo_stack : List HistEntry
deriving DecidableEq

/-- Result of one undo/redo invocation: either the method returned normally
with the new state, or an exception escaped it. -/
inductive StepResult where
  | ok (s : EState)
  | raised (c : CrashState)
deriving DecidableEq

/-- PlotWidget.undo_last_action (PlotWidget.py 275-286).  Empty stack: no-op.
Top a `(buffer, view)` pair: the pop succeeds, the current `(data, view)` is
pushed onto redo, the buffer and view are restored — and then `update_plot`
(line 283) re-sets the x-limits to `(0, len(data))` (line 109), discarding
the popped view.  Top a bare array `d` (the shape `zoom_out` pushes): the
unpacking `last_state, last_view = ...pop()` iterates the array, so it
raises ValueError — caught by the handler at line 285, leaving only the pop
in effect — unless `len(d) == 2`, in which case it binds the two scalar
samples, the redo push and the `self.data = last_state` assignment run, and
`update_plot` then raises an uncaught TypeError at `len(data)` on a scalar
(after `set_xlim(last_view)` has set the left x-limit to the second sample). -/
def undo_last_action (s : EState) : StepResult :=
  match s.undo_stack with
  | [] => .ok s
  | .pair d v :: rest =>
      .ok (update_plot
        { s with undo_stack := rest,
                 redo_stack := .pair s.data s.view :: s.redo_stack,
                 data := d, view := v } d)
  | .bare d :: rest =>
      if d.length = 2 then
        .raised { exc := .typeError,
                  dataScalar := some (d.getD 0 0),
                  view := (d.getD 1 0, s.view.2),
                  undo_stack := rest,
                  redo_stack := .pair s.data s.view :: s.redo_stack }
      else
        .ok { s with undo_stack := rest }

/-- PlotWidget.redo_last_action (PlotWidget.py 288-297).  Empty stack: no-op.
Top a pair: pop, push the current `(data, view)` onto undo, install the
popped buffer, re-render, clear the selection, and finally `set_xlim` to the
popped view (line 296 runs AFTER `update_plot`, so here the view really is
restored).  Top a bare array: there is no try/except in this method, so the
unpacking ValueError escapes uncaught after the pop (or, for a 2-element
array, the TypeError escapes from `update_plot` after the undo push and the
scalar assignment). -/
def redo_last_action (s : EState) : StepResult :=
  match s.redo_stack with
  | [] => .ok s
  | .pair d v :: rest =>
      let s2 := update_plot
        { s with redo_stack := rest,
                 undo_stack := .pair s.data s.view :: s.undo_stack,
                 data := d } d
      .ok { clear_selection s2 with view := v }
  | .bare d :: rest =>
      if d.length = 2 then
        .raised { exc := .typeError,
                  dataScalar := some (d.getD 0 0),
                  view := s.view,
                  undo_stack := .pair s.data s.view :: s.undo_stack,
                  redo_stack := rest }
      else
        .raised { exc := .valueError,
                  dataScalar := none,
                  view := s.view,
                  undo_stack := s.undo_stack,
                  redo_stack := rest }

/-- SoundEditor.apply_filter (SoundEditor.py 80-113).  Validation (buffer
present and non-empty, combobox index within the three filter kinds) happens
before anything is touched.  The three `sig.butter` designs always succeed
and the `filter_map` lookup always hits, so inside the `try` block the undo
push (line 104) runs first; `sig.filtfilt` then raises ValueError whenever
`len(x) <= padlen` where the default `padlen = 3 * max(len(a), len(b)) = 15`
for these 4th-order designs — the `except` branch reports the error and
returns, with the pushed entry left on the stack.  On success the new buffer
is handed to the player and re-rendered.  (The source model is mono, so the
`ndim > 1` downmix branch is the identity here.) -/
def apply_filter {K : Type} (dsp : DSP K) (s : EState) (index : ℕ) : EState :=
  match s.audio_data with
  | none => s
  | some ad =>
      if ad.length = 0 then s
      else if index < 3 then
        let s1 := { s with undo_stack := .pair ad s.view :: s.undo_stack }
        if ad.length ≤ 15 then s1
        else
          let nd := dsp.ff index ad
          update_plot { s1 with audio_data := some nd, player_data := nd } nd
      else s

/-- SoundEditor.fft_pitch_shift bin remap (SoundEditor.py 134-138):
`new_fft_spectrum = np.zeros_like(...)`, `new_indices = (arange(N) * factor).astype(int)`,
keep only targets `< N`, and assign `new_fft_spectrum[new_indices[valid]] = fft_spectrum[valid]`
— numpy fancy assignment makes the LAST write win on colliding targets,
which the left fold reproduces.  The factor `2 ** (semitones / 12)` is
strictly positive, so target indices are never negative and numpy's
negative-index wrapping cannot trigger. -/
def pitchRemap {K : Type} (z : K) (spec : List K) (factor : ℚ) : List K :=
  (List.range spec.length).foldl
    (fun (acc : List K) (i : ℕ) =>
      if pyInt ((i : ℚ) * factor) < (spec.length : ℤ)
      then acc.set (pyInt ((i : ℚ) * factor)).toNat (spec.getD i z)
      else acc)
    (List.replicate spec.length z)

/-- SoundEditor.fft_pitch_shift (SoundEditor.py 131-139): full spectrum,
bin remap, inverse transform, real part. -/
def fft_pitch_shift {K : Type} (dsp : DSP K) (data : List ℚ) (factor : ℚ) : List ℚ :=
  (dsp.ifft (pitchRemap dsp.zeroK (dsp.fft data) factor)).map dsp.re

/-- SoundEditor.change_pitch (SoundEditor.py 115-129).  Validation first;
then the undo push (line 122), the remap, the player handoff and the
re-render.  The method is parameterised here by the already-computed
`factor = 2 ** (semitones / 12)` (a positive real; exact in ℚ at
`semitones = 0`, where it is `1`). -/
def change_pitch {K : Type} (dsp : DSP K) (s : EState) (factor : ℚ) : EState :=
  match s.audio_data with
  | none => s
  | some ad =>
      if ad.length = 0 then s
      else
        let s1 := { s with undo_stack := .pair ad s.view :: s.undo_stack }
        let nd := fft_pitch_shift dsp ad factor
        update_plot { s1 with audio_data := some nd, player_data := nd } nd

/-- SoundEditor.trim_audio (SoundEditor.py 141-159).  Validation first; a
silent buffer (`ref == 0`) returns before anything is touched; otherwise the
undo push (line 154) and the threshold gate
`np.where(np.abs(x) < threshold, 0, x)` run, followed by the player handoff
and the re-render.  The method is parameterised by the already-computed
factor `tf = 10 ** (decibel_level / 20)` (a positive real; exact in ℚ at
`decibel_level = -20`, where it is `1/10`, and at `0`, where it is `1`). -/
def trim_audio (s : EState) (tf : ℚ) : EState :=
  match s.audio_data with
  | none => s
  | some ad =>
      if ad.length = 0 then s
      else
        let ref := maxAbs ad
        if ref = 0 then s
        else
          let threshold := ref * tf
          let s1 := { s with undo_stack := .pair ad s.view :: s.undo_stack }
          let nd := ad.map (fun x => if |x| < threshold then 0 else x)
          update_plot { s1 with audio_data := some nd, player_data := nd } nd

/-- One undo invocation as a partial step: `none` when an exception escaped. -/
def undoStep (s : EState) : Option EState :=
  match undo_last_action s with
  | .ok t => some t
  | .raised _ => none

/-- One redo invocation as a partial step. -/
def redoStep (s : EState) : Option EState :=
  match redo_last_action s with
  | .ok t => some t
  | .raised _ => none

/-- `n` consecutive undo invocations, failing if any of them raises. -/
def undoN : ℕ → EState → Option EState
  | 0, s => some s
  | n + 1, s => (undoStep s).bind (undoN n)

/-- `n` consecutive redo invocations, failing if any of them raises. -/
def redoN : ℕ → EState → Option EState
  | 0, s => some s
  | n + 1, s => (redoStep s).bind (redoN n)

/-- A degenerate external-collaborator instance (identity transforms over
`K = ℚ`), used only to instantiate theorems at concrete inputs. -/
def idDSP : DSP ℚ :=
  { zeroK := 0, fft := id, ifft := id, re := id, ff := fun _ x => x }

/-- One SUCCESSFUL edit operation in the sense of claim C1: a filter, pitch
shift, trim or crop invocation whose preconditions hold, so that it pushes
exactly one `(np.copy(buffer), view)` entry and replaces the buffer.  The
hypotheses record the success conditions visible in the source: a present,
non-empty buffer; a combobox index inside the three filter kinds and a
buffer long enough for `filtfilt`; a non-silent buffer for trim; an active
selection for the crops.  `factor` and `tf` range over the positive values
`2 ** (semitones/12)` and `10 ** (db/20)` can take. -/
inductive EditStep {K : Type} (dsp : DSP K) : EState → EState → Prop where
  | filter (s : EState) (i : ℕ) (ad : List ℚ)
      (had : s.audio_data = some ad) (hne : ad.length ≠ 0) (hi : i < 3)
      (hlong : 15 < ad.length) :
      EditStep dsp s (apply_filter dsp s i)
  | pitch (s : EState) (factor : ℚ) (ad : List ℚ)
      (had : s.audio_data = some ad) (hne : ad.length ≠ 0) (hpos : 0 < factor) :
      EditStep dsp s (change_pitch dsp s factor)
  | trim (s : EState) (tf : ℚ) (ad : List ℚ)
      (had : s.audio_data = some ad) (hne : ad.length ≠ 0)
      (href : maxAbs ad ≠ 0) (hpos : 0 < tf) :
      EditStep dsp s (trim_audio s tf)
  | cropSel (s : EState) (x0 x1 : ℚ) (hsel : s.selected_region = some (x0, x1)) :
      EditStep dsp s (crop_selected s)
  | cropUnsel (s : EState) (x0 x1 : ℚ) (hsel : s.selected_region = some (x0, x1)) :
      EditStep dsp s (crop_unselected s)

/-- A selection gesture: dragging the span selector or clearing the
selection (also what a left click outside the selection does).  These do not
touch the buffer or the history stacks. -/
inductive SelStep : EState → EState → Prop where
  | select (s : EState) (x0 x1 : ℚ) : SelStep s (on_select s x0 x1)
  | clear (s : EState) : SelStep s (clear_selection s)

/-- An editing session: any interleaving of successful edit operations and
selection gestures, counting the edit operations. -/
inductive Session {K : Type} (dsp : DSP K) : EState → EState → ℕ → Prop where
  | refl (s : EState) : Session dsp s s 0
  | edit {s t u : EState} {n : ℕ} (h : Session dsp s t n) (e : EditStep dsp t u) :
      Session dsp s u (n + 1)
  | view {s t u : EState} {n : ℕ} (h : Session dsp s t n) (v : SelStep t u) :
      Session dsp s u n

/-! ### Helper lemmas -/

theorem redoStack_apply_filter {K : Type} (dsp : DSP K) (s : EState) (i : ℕ) :
    (apply_filter dsp s i).redo_stack = s.redo_stack := by
  obtain ⟨a, d, v, sel, u, r, p, fr⟩ := s
  cases a with
  | none => rfl
  | some ad =>
      simp only [apply_filter, update_plot]
      split
      · rfl
      · split
        · split
          · rfl
          · rfl
        · rfl

theorem redoStack_change_pitch {K : Type} (dsp : DSP K) (s : EState) (factor : ℚ) :
    (change_pitch dsp s factor).redo_stack = s.redo_stack := by
  obtain ⟨a, d, v, sel, u, r, p, fr⟩ := s
  cases a with
  | none => rfl
  | some ad =>
      simp only [change_pitch, update_plot]
      split
      · rfl
      · rfl

theorem redoStack_trim_audio (s : EState) (tf : ℚ) :
    (trim_audio s tf).redo_stack = s.redo_stack := by
  obtain ⟨a, d, v, sel, u, r, p, fr⟩ := s
  cases a with
  | none => rfl
  | some ad =>
      simp only [trim_audio, update_plot]
      split
      · rfl
      · split
        · rfl
        · rfl

theorem redoStack_crop_selected (s : EState) :
    (crop_selected s).redo_stack = s.redo_stack := by
  obtain ⟨a, d, v, sel, u, r, p, fr⟩ := s
  cases sel with
  | none => rfl
  | some region => cases region; rfl

theorem redoStack_crop_unselected (s : EState) :
    (crop_unselected s).redo_stack = s.redo_stack := by
  obtain ⟨a, d, v, sel, u, r, p, fr⟩ := s
  cases sel with
  | none => rfl
  | some region => cases region; rfl

theorem redoStack_zoom_into_selected (s : EState) :
    (zoom_into_selected s).redo_stack = s.redo_stack := by
  obtain ⟨a, d, v, sel, u, r, p, fr⟩ := s
  cases sel with
  | none => rfl
  | some region => cases region; rfl

theorem pyInt_natCast (n : ℕ) : pyInt (n : ℚ) = (n : ℤ) := by
  simp [pyInt]

theorem pySlice_full {α : Type} (xs : List α) : pySlice xs 0 (xs.length : ℤ) = xs := by
  have h1 : sliceIdx xs.length (xs.length : ℤ) = xs.length := by
    simp [sliceIdx]
  have h0 : sliceIdx xs.length 0 = 0 := by simp [sliceIdx]
  simp [pySlice, h0, h1]

theorem getD_map_of_lt (f : ℚ → ℚ) (l : List ℚ) (i : ℕ) (h : i < l.length) :
    (l.map f).getD i 0 = f (l.getD i 0) := by
  rw [List.getD_eq_getElem?_getD, List.getD_eq_getElem?_getD, List.getElem?_map,
      List.getElem?_eq_getElem h]
  rfl

/-- Reduct of a successful trim (buffer present, non-empty, not silent):
one history entry `(np.copy(buffer), view)` is pushed and the gated buffer
replaces the old one everywhere (editor, plot, player), with the view reset
by the re-render. -/
theorem trim_audio_spec (s : EState) (ad : List ℚ) (tf : ℚ)
    (had : s.audio_data = some ad) (hne : ad.length ≠ 0) (href : maxAbs ad ≠ 0) :
    trim_audio s tf =
      { s with audio_data := some (ad.map fun x => if |x| < maxAbs ad * tf then 0 else x),
               data := ad.map fun x => if |x| < maxAbs ad * tf then 0 else x,
               view := (0, ((ad.map fun x => if |x| < maxAbs ad * tf then 0 else x).length : ℚ)),
               player_data := ad.map fun x => if |x| < maxAbs ad * tf then 0 else x,
               undo_stack := HistEntry.pair ad s.view :: s.undo_stack } := by
  obtain ⟨a, d, v, sel, u, r, p, fr⟩ := s
  simp only at had
  subst had
  simp [trim_audio, update_plot, hne, href]

/-! ### Machinery for claim C1 -/

/-- An undo invocation whose top entry is a `(buffer, view)` pair restores
the popped buffer (with the view reset by the re-render) and pushes the
current `(buffer, view)` onto the redo stack; nothing else changes. -/
theorem undoStep_pair (s : EState) (d : List ℚ) (v : ℚ × ℚ) (rest : List HistEntry)
    (h : s.undo_stack = HistEntry.pair d v :: rest) :
    undoStep s = some
      { s with data := d, view := (0, (d.length : ℚ)),
               undo_stack := rest,
               redo_stack := HistEntry.pair s.data s.view :: s.redo_stack } := by
  obtain ⟨a, dd, vv, sel, u, r, p, fr⟩ := s
  simp only at h
  subst h
  rfl

/-- A redo invocation whose top entry is a pair restores the popped buffer
AND the popped view (here `set_xlim` runs after the re-render), clears the
selection, hands the buffer to the player, and pushes the current state
onto the undo stack. -/
theorem redoStep_pair (s : EState) (d : List ℚ) (v : ℚ × ℚ) (rest : List HistEntry)
    (h : s.redo_stack = HistEntry.pair d v :: rest) :
    redoStep s = some
      { s with data := d, view := v, selected_region := none, player_data := d,
               undo_stack := HistEntry.pair s.data s.view :: s.undo_stack,
               redo_stack := rest } := by
  obtain ⟨a, dd, vv, sel, u, r, p, fr⟩ := s
  simp only at h
  subst h
  rfl

theorem redoN_succ_last (n : ℕ) (s : EState) :
    redoN (n + 1) s = (redoN n s).bind redoStep := by
  induction n generalizing s with
  | zero => cases hs : redoStep s <;> simp [redoN, hs]
  | succ n ih =>
      cases hs : redoStep s with
      | none => simp [redoN, hs]
      | some t =>
          simp only [redoN, hs, Option.some_bind]
          exact ih t

/-- Lemma A: undoing through a prefix of `(buffer, view)` pairs succeeds,
consumes exactly that prefix, and ends with the DEEPEST pushed snapshot as
the active buffer. -/
theorem undoN_pairs (ps : List (List ℚ × (ℚ × ℚ))) :
    ∀ (s : EState) (U : List HistEntry),
      s.undo_stack = ps.map (fun p => HistEntry.pair p.1 p.2) ++ U →
      ∃ u : EState, undoN ps.length s = some u ∧
        u.undo_stack = U ∧
        u.data = (ps.map Prod.fst).getLastD s.data := by
  induction ps with
  | nil =>
      intro s U h
      exact ⟨s, rfl, by simpa using h, rfl⟩
  | cons p ps ih =>
      intro s U h
      have hstep := undoStep_pair s p.1 p.2
        (ps.map (fun q => HistEntry.pair q.1 q.2) ++ U) (by simpa using h)
      obtain ⟨u, hu, hu2, hu3⟩ := ih
        { s with data := p.1, view := (0, (p.1.length : ℚ)),
                 undo_stack := ps.map (fun q => HistEntry.pair q.1 q.2) ++ U,
                 redo_stack := HistEntry.pair s.data s.view :: s.redo_stack }
        U rfl
      refine ⟨u, ?_, hu2, ?_⟩
      · have hlen : (p :: ps).length = ps.length + 1 := rfl
        rw [hlen, undoN, hstep]
        simpa using hu
      · rw [hu3, List.map_cons, List.getLastD_cons]

/-- Lemma B: when the top `k` undo entries are pairs, `k` undos followed by
`k` redos return normally and restore the active buffer and the redo stack
exactly. -/
theorem undo_redo_cancel (k : ℕ) :
    ∀ s : EState, k ≤ s.undo_stack.length →
      (∀ e ∈ s.undo_stack.take k, ∃ d v, e = HistEntry.pair d v) →
      ∃ t τ : EState, undoN k s = some t ∧ redoN k t = some τ ∧
        τ.data = s.data ∧ τ.redo_stack = s.redo_stack := by
  induction k with
  | zero => intro s _ _; exact ⟨s, s, rfl, rfl, rfl, rfl⟩
  | succ k ih =>
      intro s hlen hpairs
      obtain ⟨e, rest, hu⟩ : ∃ e rest, s.undo_stack = e :: rest := by
        cases hcase : s.undo_stack with
        | nil => rw [hcase] at hlen; simp at hlen
        | cons e rest => exact ⟨e, rest, rfl⟩
      obtain ⟨d, v, he⟩ := hpairs e
        (by rw [hu, List.take_succ_cons]; exact List.mem_cons_self e _)
      subst he
      have hstep := undoStep_pair s d v rest hu
      have hrestlen : k ≤ rest.length := by
        have hl : s.undo_stack.length = rest.length + 1 := by rw [hu]; rfl
        omega
      obtain ⟨t, τ1, ht, hτ1, hdata, hredo⟩ := ih
        { s with data := d, view := (0, (d.length : ℚ)),
                 undo_stack := rest,
                 redo_stack := HistEntry.pair s.data s.view :: s.redo_stack }
        hrestlen
        (by
          intro e2 he2
          refine hpairs e2 ?_
          rw [hu, List.take_succ_cons]
          exact List.mem_cons_of_mem _ he2)
      have hrstep := redoStep_pair τ1 s.data s.view s.redo_stack hredo
      refine ⟨t,
        { τ1 with data := s.data, view := s.view, selected_region := none,
                  player_data := s.data,
                  undo_stack := HistEntry.pair τ1.data τ1.view :: τ1.undo_stack,
                  redo_stack := s.redo_stack }, ?_, ?_, rfl, rfl⟩
      · rw [undoN, hstep]
        simpa using ht
      · rw [redoN_succ_last, hτ1]
        simpa using hrstep

/-- Reduct of a successful filter application. -/
theorem apply_filter_success {K : Type} (dsp : DSP K) (s : EState) (i : ℕ) (ad : List ℚ)
    (had : s.audio_data = some ad) (hne : ad.length ≠ 0) (hi : i < 3)
    (hlong : 15 < ad.length) :
    apply_filter dsp s i =
      { s with audio_data := some (dsp.ff i ad), data := dsp.ff i ad,
               view := (0, ((dsp.ff i ad).length : ℚ)), player_data := dsp.ff i ad,
               undo_stack := HistEntry.pair ad s.view :: s.undo_stack } := by
  obtain ⟨a, dd, vv, sel, u, r, p, fr⟩ := s
  simp only at had
  subst had
  have h15 : ¬ ad.length ≤ 15 := by omega
  simp [apply_filter, update_plot, hne, hi, h15]

/-- Reduct of a pitch shift on a present non-empty buffer. -/
theorem change_pitch_spec {K : Type} (dsp : DSP K) (s : EState) (factor : ℚ) (ad : List ℚ)
    (had : s.audio_data = some ad) (hne : ad.length ≠ 0) :
    change_pitch dsp s factor =
      { s with audio_data := some (fft_pitch_shift dsp ad factor),
               data := fft_pitch_shift dsp ad factor,
               view := (0, ((fft_pitch_shift dsp ad factor).length : ℚ)),
               player_data := fft_pitch_shift dsp ad factor,
               undo_stack := HistEntry.pair ad s.view :: s.undo_stack } := by
  obtain ⟨a, dd, vv, sel, u, r, p, fr⟩ := s
  simp only at had
  subst had
  simp [change_pitch, update_plot, hne]

/-- Reduct of crop-to-selection with an active selection. -/
theorem crop_selected_spec (s : EState) (x0 x1 : ℚ)
    (h : s.selected_region = some (x0, x1)) :
    crop_selected s =
      { s with data := pySlice s.data (pyInt x0) (pyInt x1),
               view := (0, ((pySlice s.data (pyInt x0) (pyInt x1)).length : ℚ)),
               selected_region := none,
               player_data := pySlice s.data (pyInt x0) (pyInt x1),
               undo_stack := HistEntry.pair s.data s.view :: s.undo_stack } := by
  obtain ⟨a, dd, vv, sel, u, r, p, fr⟩ := s
  simp only at h
  subst h
  rfl

/-- Reduct of crop-out-selection with an active selection. -/
theorem crop_unselected_spec (s : EState) (x0 x1 : ℚ)
    (h : s.selected_region = some (x0, x1)) :
    crop_unselected s =
      { s with data := pySlice s.data 0 (pyInt x0)
                        ++ pySlice s.data (pyInt x1) (s.data.length : ℤ),
               view := (0, ((pySlice s.data 0 (pyInt x0)
                        ++ pySlice s.data (pyInt x1) (s.data.length : ℤ)).length : ℚ)),
               selected_region := none,
               player_data := pySlice s.data 0 (pyInt x0)
                        ++ pySlice s.data (pyInt x1) (s.data.length : ℤ),
               undo_stack := HistEntry.pair s.data s.view :: s.undo_stack } := by
  obtain ⟨a, dd, vv, sel, u, r, p, fr⟩ := s
  simp only at h
  subst h
  rfl

/-- Selection gestures touch neither the buffers nor the history stacks. -/
theorem selStep_preserves (s t : EState) (h : SelStep s t) :
    t.data = s.data ∧ t.audio_data = s.audio_data ∧
    t.undo_stack = s.undo_stack ∧ t.redo_stack = s.redo_stack := by
  cases h with
  | select x0 x1 =>
      simp only [on_select]
      split
      · exact ⟨rfl, rfl, rfl, rfl⟩
      · exact ⟨rfl, rfl, rfl, rfl⟩
  | clear => exact ⟨rfl, rfl, rfl, rfl⟩

/-- The step of the session invariant: pushing `(snap, view)` on top of a
pair prefix keeps the prefix shape, and keeps the DEEPEST snapshot equal to
the session's initial buffer. -/
theorem invariant_push_step (s0 t u2 : EState) (ps : List (List ℚ × (ℚ × ℚ)))
    (snap : List ℚ)
    (h1 : t.undo_stack = ps.map (fun p => HistEntry.pair p.1 p.2) ++ s0.undo_stack)
    (h3 : (ps.map Prod.fst).getLastD t.data = s0.data)
    (hsnap : ps = [] → snap = s0.data)
    (hu : u2.undo_stack = HistEntry.pair snap t.view :: t.undo_stack) :
    u2.undo_stack
      = ((snap, t.view) :: ps).map (fun p => HistEntry.pair p.1 p.2) ++ s0.undo_stack ∧
    (((snap, t.view) :: ps).map Prod.fst).getLastD u2.data = s0.data := by
  constructor
  · rw [hu, h1]; rfl
  · rw [List.map_cons, List.getLastD_cons]
    cases hps : ps with
    | nil => simpa using hsnap hps
    | cons q qs =>
        rw [hps] at h3
        rw [List.map_cons, List.getLastD_cons] at h3
        rw [List.map_cons, List.getLastD_cons]
        exact h3

/-- The session invariant: after any interleaving of `n` successful edits
and selection gestures starting from a synchronised state, the undo stack
has gained exactly `n` `(buffer, view)` pairs on top of the original stack,
and the deepest of those pairs snapshots the initial buffer. -/
theorem session_invariant {K : Type} (dsp : DSP K) (s0 sn : EState) (n : ℕ)
    (hsess : Session dsp s0 sn n) (hsync : s0.audio_data = some s0.data) :
    ∃ ps : List (List ℚ × (ℚ × ℚ)),
      sn.undo_stack = ps.map (fun p => HistEntry.pair p.1 p.2) ++ s0.undo_stack ∧
      ps.length = n ∧
      (ps.map Prod.fst).getLastD sn.data = s0.data ∧
      (ps = [] → sn.audio_data = some s0.data ∧ sn.data = s0.data) := by
  induction hsess with
  | refl => exact ⟨[], rfl, rfl, rfl, fun _ => ⟨hsync, rfl⟩⟩
  | @edit t u n h e ih =>
      obtain ⟨ps, h1, h2, h3, h4⟩ := ih
      cases e with
      | filter i ad had hne hi hlong =>
          have hsnap : ps = [] → ad = s0.data := by
            intro hps
            obtain ⟨ha, _⟩ := h4 hps
            rw [had] at ha
            exact Option.some.inj ha
          have hred := apply_filter_success dsp t i ad had hne hi hlong
          obtain ⟨g1, g3⟩ := invariant_push_step s0 t (apply_filter dsp t i) ps ad h1 h3 hsnap
            (by rw [hred])
          exact ⟨(ad, t.view) :: ps, g1, by simp [h2], g3, by intro hc; cases hc⟩
      | pitch factor ad had hne hpos =>
          have hsnap : ps = [] → ad = s0.data := by
            intro hps
            obtain ⟨ha, _⟩ := h4 hps
            rw [had] at ha
            exact Option.some.inj ha
          have hred := change_pitch_spec dsp t factor ad had hne
          obtain ⟨g1, g3⟩ := invariant_push_step s0 t (change_pitch dsp t factor) ps ad h1 h3 hsnap
            (by rw [hred])
          exact ⟨(ad, t.view) :: ps, g1, by simp [h2], g3, by intro hc; cases hc⟩
      | trim tf ad had hne href hpos =>
          have hsnap : ps = [] → ad = s0.data := by
            intro hps
            obtain ⟨ha, _⟩ := h4 hps
            rw [had] at ha
            exact Option.some.inj ha
          have hred := trim_audio_spec t ad tf had hne href
          obtain ⟨g1, g3⟩ := invariant_push_step s0 t (trim_audio t tf) ps ad h1 h3 hsnap
            (by rw [hred])
          exact ⟨(ad, t.view) :: ps, g1, by simp [h2], g3, by intro hc; cases hc⟩
      | cropSel x0 x1 hsel =>
          have hsnap : ps = [] → t.data = s0.data := fun hps => (h4 hps).2
          have hred := crop_selected_spec t x0 x1 hsel
          obtain ⟨g1, g3⟩ := invariant_push_step s0 t (crop_selected t) ps t.data h1 h3 hsnap
            (by rw [hred])
          exact ⟨(t.data, t.view) :: ps, g1, by simp [h2], g3, by intro hc; cases hc⟩
      | cropUnsel x0 x1 hsel =>
          have hsnap : ps = [] → t.data = s0.data := fun hps => (h4 hps).2
          have hred := crop_unselected_spec t x0 x1 hsel
          obtain ⟨g1, g3⟩ := invariant_push_step s0 t (crop_unselected t) ps t.data h1 h3 hsnap
            (by rw [hred])
          exact ⟨(t.data, t.view) :: ps, g1, by simp [h2], g3, by intro hc; cases hc⟩
  | @view t u n h v ih =>
      obtain ⟨ps, h1, h2, h3, h4⟩ := ih
      obtain ⟨hd, ha, hus, _⟩ := selStep_preserves t u v
      exact ⟨ps, by rw [hus, h1], h2, by rw [hd]; exact h3,
        fun hps => ⟨by rw [ha]; exact (h4 hps).1, by rw [hd]; exact (h4 hps).2⟩⟩

/-! ### Claim C1 -/

/-- C1: for every initial editor state whose plot buffer and editor buffer
agree on a buffer `B`, and every session of `n` SUCCESSFUL edit operations
(filter, pitch shift, trim, crop — each pushing one `(np.copy(buffer), view)`
entry), in any interleaving with selection gestures, performing undo `n`
times returns normally and restores exactly `B` as the active buffer, and
performing redo `n` times after that returns normally and restores exactly
the final edited buffer. -/
theorem C1_undo_redo_round_trip {K : Type} (dsp : DSP K) (s0 sn : EState) (n : ℕ)
    (hsync : s0.audio_data = some s0.data)
    (hsess : Session dsp s0 sn n) :
    ∃ u t : EState,
      undoN n sn = some u ∧ u.data = s0.data ∧
      redoN n u = some t ∧ t.data = sn.data := by
  obtain ⟨ps, h1, h2, h3, h4⟩ := session_invariant dsp s0 sn n hsess hsync
  obtain ⟨u, hu, hu2, hu3⟩ := undoN_pairs ps sn s0.undo_stack h1
  have hmapslen : (ps.map (fun p => HistEntry.pair p.1 p.2)).length = n := by
    simp [h2]
  have hlen : n ≤ sn.undo_stack.length := by
    rw [h1, List.length_append, hmapslen]
    omega
  have htake : sn.undo_stack.take n = ps.map (fun p => HistEntry.pair p.1 p.2) := by
    rw [h1, ← hmapslen, List.take_left]
  have hpairs : ∀ e ∈ sn.undo_stack.take n, ∃ d v, e = HistEntry.pair d v := by
    rw [htake]
    intro e he
    obtain ⟨p, _, hpe⟩ := List.mem_map.mp he
    exact ⟨p.1, p.2, hpe.symm⟩
  obtain ⟨t, τ, ht, hτ, hdata, _⟩ := undo_redo_cancel n sn hlen hpairs
  rw [h2] at hu
  rw [hu] at ht
  have hut : u = t := Option.some.inj ht
  refine ⟨u, τ, ?_, ?_, ?_, ?_⟩
  · rw [← h2]
    rw [h2]
    exact hu
  · rw [hu3]
    exact h3
  · rw [hut]
    exact hτ
  · exact hdata

/-- C1, witness: a one-edit session — a successful trim (at factor `2`,
i.e. `db > 0`) on the two-sample buffer `[2]` — applied to the round-trip
theorem, with all hypotheses discharged concretely. -/
theorem C1_witness :
    ∃ u t : EState,
      undoN 1 (trim_audio
        { audio_data := some [2], data := [2], view := (0, 1), selected_region := none,
          undo_stack := [], redo_stack := [], player_data := [2], initial_frame := 0 } 2)
        = some u ∧
      u.data = [2] ∧
      redoN 1 u = some t ∧
      t.data = (trim_audio
        { audio_data := some [2], data := [2], view := (0, 1), selected_region := none,
          undo_stack := [], redo_stack := [], player_data := [2], initial_frame := 0 } 2).data :=
  C1_undo_redo_round_trip idDSP
    { audio_data := some [2], data := [2], view := (0, 1), selected_region := none,
      undo_stack := [], redo_stack := [], player_data := [2], initial_frame := 0 }
    (trim_audio
      { audio_data := some [2], data := [2], view := (0, 1), selected_region := none,
        undo_stack := [], redo_stack := [], player_data := [2], initial_frame := 0 } 2)
    1 rfl
    (Session.edit (Session.refl _)
      (EditStep.trim _ 2 [2] rfl (by decide) (by norm_num [maxAbs]) (by norm_num)))

/-- C2, counterexample.  The claim says every mutating action clears the
redo stack after pushing onto the undo stack; here a successful trim on a
state with a non-empty redo stack pushes its undo entry but leaves the redo
stack untouched (and non-empty). -/
theorem C2_counterexample :
    (trim_audio { audio_data := some [1], data := [1], view := (0, 1), selected_region := none,
                  undo_stack := [], redo_stack := [HistEntry.pair [9] (0, 1)],
                  player_data := [1], initial_frame := 0 } 1).undo_stack
        = [HistEntry.pair [1] (0, 1)] ∧
    (trim_audio { audio_data := some [1], data := [1], view := (0, 1), selected_region := none,
                  undo_stack := [], redo_stack := [HistEntry.pair [9] (0, 1)],
                  player_data := [1], initial_frame := 0 } 1).redo_stack
        = [HistEntry.pair [9] (0, 1)] := by
  decide

/-- C2, amended: no mutating operation clears the redo stack.  Filter,
pitch shift, trim, the two crops and zoom-into-selection all leave
`redo_stack` exactly as it was (while capturing state onto `undo_stack`
when they act), and zoom-out even APPENDS the live buffer to the redo
stack.  Only `push_state` clears the redo stack — and no operation in the
repository calls it. -/
theorem C2_mutators_never_clear_redo {K : Type} (dsp : DSP K) (s : EState)
    (i : ℕ) (factor tf : ℚ) (d0 : List ℚ) :
    (apply_filter dsp s i).redo_stack = s.redo_stack ∧
    (change_pitch dsp s factor).redo_stack = s.redo_stack ∧
    (trim_audio s tf).redo_stack = s.redo_stack ∧
    (crop_selected s).redo_stack = s.redo_stack ∧
    (crop_unselected s).redo_stack = s.redo_stack ∧
    (zoom_into_selected s).redo_stack = s.redo_stack ∧
    (zoom_out s).redo_stack = HistEntry.bare s.data :: s.redo_stack ∧
    (push_state s d0).redo_stack = [] :=
  ⟨redoStack_apply_filter dsp s i, redoStack_change_pitch dsp s factor,
   redoStack_trim_audio s tf, redoStack_crop_selected s, redoStack_crop_unselected s,
   redoStack_zoom_into_selected s, rfl, rfl⟩

/-! ### Claim C3 -/

/-- C3: the claim says `undo` on an empty stack is a no-op, and otherwise
pops the most recent `(buffer, view_range)` entry, pushes the current
buffer and view onto the redo stack, and makes the popped buffer AND the
popped view_range active.  The code restores the buffer and does the redo
push, but then `update_plot` (PlotWidget.py 283) re-sets the x-limits to
`(0, len(data))` (line 109) AFTER `set_xlim(last_view)` (line 282), so the
popped view `(10, 50)` is discarded: the resulting view is `(0, 3)`.  The
empty-stack no-op conjunct holds. -/
theorem C3_undo_view_not_restored :
    undo_last_action { audio_data := some [1, 2, 3, 4], data := [1, 2, 3, 4], view := (0, 4),
                       selected_region := none,
                       undo_stack := [HistEntry.pair [1, 2, 3] (10, 50)], redo_stack := [],
                       player_data := [1, 2, 3, 4], initial_frame := 0 }
      = StepResult.ok
          { audio_data := some [1, 2, 3, 4], data := [1, 2, 3], view := (0, 3),
            selected_region := none,
            undo_stack := [], redo_stack := [HistEntry.pair [1, 2, 3, 4] (0, 4)],
            player_data := [1, 2, 3, 4], initial_frame := 0 } ∧
    ((0 : ℚ), (3 : ℚ)) ≠ ((10 : ℚ), (50 : ℚ)) ∧
    undo_last_action { audio_data := some [1], data := [1], view := (0, 1),
                       selected_region := none, undo_stack := [], redo_stack := [],
                       player_data := [1], initial_frame := 0 }
      = StepResult.ok
          { audio_data := some [1], data := [1], view := (0, 1),
            selected_region := none, undo_stack := [], redo_stack := [],
            player_data := [1], initial_frame := 0 } := by
  decide

/-! ### Claim C9 -/

/-- C9, counterexample.  The claim says zoom-out pushes exactly one
`(buffer snapshot, old view_range)` pair onto the undo stack and does not
grow the redo stack.  On this state the pushed undo entry is the bare
array `[1, 2]` (not a pair), and the redo stack grows from `[]` to one
entry. -/
theorem C9_counterexample :
    (zoom_out { audio_data := some [1, 2], data := [1, 2], view := (0, 2),
                selected_region := none, undo_stack := [], redo_stack := [],
                player_data := [1, 2], initial_frame := 0 }).undo_stack
        = [HistEntry.bare [1, 2]] ∧
    (zoom_out { audio_data := some [1, 2], data := [1, 2], view := (0, 2),
                selected_region := none, undo_stack := [], redo_stack := [],
                player_data := [1, 2], initial_frame := 0 }).redo_stack
        = [HistEntry.bare [1, 2]] ∧
    [HistEntry.bare [1, 2]] ≠ ([] : List HistEntry) := by
  decide

/-- C9, amended: zoom-out sets the view range to the full buffer extent
and appends the bare live data array — not a `(snapshot, view_range)`
pair, and not a copy — to BOTH the undo stack and the redo stack, then
clears the selection. -/
theorem C9_zoom_out_behavior (s : EState) :
    zoom_out s = { s with view := (0, (s.data.length : ℚ)),
                          selected_region := none,
                          player_data := s.data,
                          undo_stack := HistEntry.bare s.data :: s.undo_stack,
                          redo_stack := HistEntry.bare s.data :: s.redo_stack } :=
  rfl

/-! ### Claim C10 -/

/-- C10, counterexample.  The claim says a bare-array top entry is popped
with the buffer, view and redo stack left unchanged.  That is what happens
when the array's length differs from 2 (the ValueError from unpacking is
caught after the pop) — but a bare array of exactly two samples unpacks
element-wise: the redo stack receives a snapshot (growing from `[]` to one
entry), the buffer is overwritten with the scalar first sample, and the
re-render raises an uncaught TypeError. -/
theorem C10_counterexample :
    undo_last_action { audio_data := some [7], data := [7], view := (0, 1),
                       selected_region := none,
                       undo_stack := [HistEntry.bare [5, 9]], redo_stack := [],
                       player_data := [7], initial_frame := 0 }
      = StepResult.raised
          { exc := PyExc.typeError, dataScalar := some 5, view := (9, 1),
            undo_stack := [], redo_stack := [HistEntry.pair [7] (0, 1)] } ∧
    [HistEntry.pair [7] (0, 1)] ≠ ([] : List HistEntry) := by
  decide

/-- C10, amended: if the top undo entry is a bare sample array whose
length is not 2, `undo` removes that entry and leaves everything else —
buffer, view range, redo stack, selection, player state — unchanged: the
entry is silently consumed (the unpacking ValueError is caught after the
pop).  A bare array of length exactly 2 instead unpacks element-wise and
crashes the re-render after growing the redo stack. -/
theorem C10_bare_undo_entry (s : EState) (d2 : List ℚ) (rest : List HistEntry)
    (h : s.undo_stack = HistEntry.bare d2 :: rest) (hlen : d2.length ≠ 2) :
    undo_last_action s = StepResult.ok { s with undo_stack := rest } := by
  obtain ⟨a, d, v, sel, u, r, p, fr⟩ := s
  simp only at h
  subst h
  simp [undo_last_action, hlen]

/-! ### Claim C4 -/

/-- C4, counterexample.  The claim says every mutating entry point either
fully succeeds (recording exactly one history entry) or fails with the
buffer AND the history stacks untouched.  `apply_filter` on a 1-sample
buffer passes the non-empty validation, pushes its history entry (line 104),
and only then calls `filtfilt`, which rejects any input of length ≤ 15
(default `padlen = 3 * max(len(a), len(b)) = 15` for the 4th-order designs);
the exception is caught and the operation aborts — with the buffer unchanged
but a stale entry left on the undo stack. -/
theorem C4_counterexample :
    apply_filter idDSP
        { audio_data := some [5], data := [5], view := (0, 1), selected_region := none,
          undo_stack := [], redo_stack := [], player_data := [5], initial_frame := 0 } 0
      = { audio_data := some [5], data := [5], view := (0, 1), selected_region := none,
          undo_stack := [HistEntry.pair [5] (0, 1)], redo_stack := [],
          player_data := [5], initial_frame := 0 } ∧
    [HistEntry.pair [5] (0, 1)] ≠ ([] : List HistEntry) := by
  decide

/-- C4, amended: `apply_filter`, `change_pitch` and `trim_audio` do validate
the empty/missing-buffer precondition before touching the history stack or
the buffer (and trim's silent-buffer early return also precedes its push),
so a validation failure leaves the state exactly unchanged; but atomicity
does not hold for `apply_filter`: it pushes its history entry BEFORE running
the filter, and when `filtfilt` rejects the buffer (length ≤ 15 with the
default padding of these 4th-order designs) the operation aborts with the
buffer, player and redo stack unchanged while the pushed entry remains on
the undo stack. -/
theorem C4_validation_and_stale_push {K : Type} (dsp : DSP K) (s : EState) (i : ℕ)
    (factor tf : ℚ) :
    (s.audio_data = none →
      apply_filter dsp s i = s ∧ change_pitch dsp s factor = s ∧ trim_audio s tf = s) ∧
    (s.audio_data = some [] →
      apply_filter dsp s i = s ∧ change_pitch dsp s factor = s ∧ trim_audio s tf = s) ∧
    (∀ ad : List ℚ, s.audio_data = some ad → maxAbs ad = 0 → trim_audio s tf = s) ∧
    (∀ ad : List ℚ, s.audio_data = some ad → ad.length ≠ 0 → i < 3 → ad.length ≤ 15 →
      apply_filter dsp s i
        = { s with undo_stack := HistEntry.pair ad s.view :: s.undo_stack }) := by
  obtain ⟨a, d, v, sel, u, r, p, fr⟩ := s
  refine ⟨?_, ?_, ?_, ?_⟩
  · intro h; simp only at h; subst h
    exact ⟨rfl, rfl, rfl⟩
  · intro h; simp only at h; subst h
    refine ⟨?_, ?_, ?_⟩ <;> rfl
  · intro ad h h0; simp only at h; subst h
    by_cases hlen : ad.length = 0
    · simp [trim_audio, hlen]
    · simp [trim_audio, hlen, h0]
  · intro ad h hne hi hshort; simp only at h; subst h
    simp [apply_filter, hne, hi, hshort]

/-- C4, witness: the amended statement applied at concrete states — a
missing buffer makes trim a perfect no-op, and `apply_filter` on the
3-sample buffer `[3]` leaves everything unchanged except the stale undo
entry. -/
theorem C4_witness :
    trim_audio { audio_data := none, data := [], view := (0, 0), selected_region := none,
                 undo_stack := [], redo_stack := [], player_data := [], initial_frame := 0 } 1
      = { audio_data := none, data := [], view := (0, 0), selected_region := none,
          undo_stack := [], redo_stack := [], player_data := [], initial_frame := 0 } ∧
    apply_filter idDSP
        { audio_data := some [3], data := [3], view := (0, 1), selected_region := none,
          undo_stack := [], redo_stack := [], player_data := [3], initial_frame := 0 } 1
      = { audio_data := some [3], data := [3], view := (0, 1), selected_region := none,
          undo_stack := [HistEntry.pair [3] (0, 1)], redo_stack := [],
          player_data := [3], initial_frame := 0 } := by
  constructor
  · exact ((C4_validation_and_stale_push idDSP _ 0 1 1).1 rfl).2.2
  · exact (C4_validation_and_stale_push idDSP _ 1 1 1).2.2.2 [3] rfl
      (by decide) (by decide) (by decide)

/-! ### Claim C5 -/

/-- C5: amplitude trim computes `ref = max(|sample|)`; a silent buffer
(`ref == 0`) makes the whole operation a no-op; otherwise, with
`threshold = ref * tf` for the caller's factor `tf = 10 ** (db/20)`, every
sample strictly below the threshold in magnitude becomes exactly zero and
every other sample is unchanged; and the buffer
`[0.1, 0.5, -0.9, 0.05, 0.01]` trimmed at `db = -20` (factor `1/10`,
`ref = 9/10`, `threshold = 9/100`) yields `[0.1, 0.5, -0.9, 0, 0]`. -/
theorem C5_trim_threshold_gate (s : EState) (ad : List ℚ) (tf : ℚ)
    (had : s.audio_data = some ad) :
    (maxAbs ad = 0 → trim_audio s tf = s) ∧
    (ad.length ≠ 0 → maxAbs ad ≠ 0 →
      (trim_audio s tf).data.length = ad.length ∧
      ∀ i : ℕ, i < ad.length →
        (trim_audio s tf).data.getD i 0 =
          if |ad.getD i 0| < maxAbs ad * tf then 0 else ad.getD i 0) ∧
    (trim_audio { audio_data := some [1/10, 1/2, -9/10, 1/20, 1/100],
                  data := [1/10, 1/2, -9/10, 1/20, 1/100], view := (0, 5),
                  selected_region := none, undo_stack := [], redo_stack := [],
                  player_data := [1/10, 1/2, -9/10, 1/20, 1/100], initial_frame := 0 }
        (1/10)).data
      = [1/10, 1/2, -9/10, 0, 0] := by
  refine ⟨?_, ?_, ?_⟩
  · intro h0
    obtain ⟨a, d, v, sel, u, r, p, fr⟩ := s
    simp only at had
    subst had
    by_cases hlen : ad.length = 0
    · simp [trim_audio, hlen]
    · simp [trim_audio, hlen, h0]
  · intro hlen href
    rw [trim_audio_spec s ad tf had hlen href]
    refine ⟨by simp, ?_⟩
    intro i hi
    simpa using getD_map_of_lt _ ad i hi
  · norm_num [trim_audio, maxAbs, update_plot, max_def, abs]

/-- C5, witness: the sample-wise statement applied to the concrete scenario
state (hypotheses discharged there), giving the claim's expected output. -/
theorem C5_witness :
    (trim_audio { audio_data := some [1/10, 1/2, -9/10, 1/20, 1/100],
                  data := [1/10, 1/2, -9/10, 1/20, 1/100], view := (0, 5),
                  selected_region := none, undo_stack := [], redo_stack := [],
                  player_data := [1/10, 1/2, -9/10, 1/20, 1/100], initial_frame := 0 }
        (1/10)).data
      = [1/10, 1/2, -9/10, 0, 0] :=
  (C5_trim_threshold_gate
      { audio_data := some [1/10, 1/2, -9/10, 1/20, 1/100],
        data := [1/10, 1/2, -9/10, 1/20, 1/100], view := (0, 5),
        selected_region := none, undo_stack := [], redo_stack := [],
        player_data := [1/10, 1/2, -9/10, 1/20, 1/100], initial_frame := 0 }
      [1/10, 1/2, -9/10, 1/20, 1/100] (1/10) rfl).2.2

/-! ### Claim C6 -/

theorem pyInt_nonneg (q : ℚ) (h : 0 ≤ q) : 0 ≤ pyInt q :=
  Int.tdiv_nonneg (Rat.num_nonneg.mpr h) (Int.natCast_nonneg q.den)

theorem getD_set_self {K : Type} (l : List K) (j : ℕ) (v z : K) (h : j < l.length) :
    (l.set j v).getD j z = v := by
  rw [List.getD_eq_getElem?_getD, List.getElem?_set_eq_of_lt v h]
  rfl

theorem getD_set_ne {K : Type} (l : List K) (i j : ℕ) (v z : K) (hne : i ≠ j) :
    (l.set i v).getD j z = l.getD j z := by
  rw [List.getD_eq_getElem?_getD, List.getD_eq_getElem?_getD, List.getElem?_set_ne hne]

theorem getD_replicate_self {K : Type} (n j : ℕ) (z : K) :
    (List.replicate n z).getD j z = z := by
  rw [List.getD_eq_getElem?_getD, List.getElem?_replicate]
  split <;> rfl

/-- The accumulator characterisation of the remap fold: after folding the
index list `l` over an accumulator of length `N`, position `j < N` holds the
spectrum value of the LAST index in `l` that maps to `j` (numpy fancy
assignment: later writes overwrite earlier ones), or the accumulator's
original value if no index in `l` maps to `j`. -/
theorem remapFold_getD {K : Type} (z : K) (spec : List K) (factor : ℚ) (hf : 0 < factor)
    (N : ℕ) (l : List ℕ) :
    ∀ acc : List K, acc.length = N → ∀ j : ℕ, j < N →
      ((l.foldl (fun (acc : List K) (i : ℕ) =>
          if pyInt ((i : ℚ) * factor) < (N : ℤ)
          then acc.set (pyInt ((i : ℚ) * factor)).toNat (spec.getD i z)
          else acc) acc).getD j z)
        = ((l.filter (fun i : ℕ => pyInt ((i : ℚ) * factor) = (j : ℤ))).getLast?).elim
            (acc.getD j z) (fun i : ℕ => spec.getD i z) := by
  induction l with
  | nil => intro acc hacc j hj; simp
  | cons i0 l ih =>
      intro acc hacc j hj
      rw [List.foldl_cons]
      by_cases hp : pyInt ((i0 : ℚ) * factor) = (j : ℤ)
      · have ht : pyInt ((i0 : ℚ) * factor) < (N : ℤ) := by
          rw [hp]; exact_mod_cast hj
        have htn : (pyInt ((i0 : ℚ) * factor)).toNat = j := by
          rw [hp]; exact Int.toNat_natCast j
        have hfilt : List.filter (fun i : ℕ => pyInt ((i : ℚ) * factor) = (j : ℤ)) (i0 :: l)
            = i0 :: List.filter (fun i : ℕ => pyInt ((i : ℚ) * factor) = (j : ℤ)) l := by
          simp [List.filter_cons, hp]
        rw [hfilt, if_pos ht, htn,
            ih (acc.set j (spec.getD i0 z)) (by simp [hacc]) j hj,
            List.getLast?_cons]
        cases (List.filter (fun i : ℕ => pyInt ((i : ℚ) * factor) = (j : ℤ)) l).getLast? with
        | none =>
            simp only [Option.elim, Option.getD]
            exact getD_set_self acc j (spec.getD i0 z) z (hacc ▸ hj)
        | some x => rfl
      · have hstep : ∀ w : K,
            (if pyInt ((i0 : ℚ) * factor) < (N : ℤ)
             then acc.set (pyInt ((i0 : ℚ) * factor)).toNat w
             else acc).getD j z = acc.getD j z := by
          intro w
          split
          · apply getD_set_ne
            intro hcontra
            apply hp
            have h0 : 0 ≤ pyInt ((i0 : ℚ) * factor) :=
              pyInt_nonneg _ (by positivity)
            rw [← Int.toNat_of_nonneg h0, hcontra]
          · rfl
        have hlenstep :
            (if pyInt ((i0 : ℚ) * factor) < (N : ℤ)
             then acc.set (pyInt ((i0 : ℚ) * factor)).toNat (spec.getD i0 z)
             else acc).length = N := by
          split <;> simp [hacc]
        have hfilt : List.filter (fun i : ℕ => pyInt ((i : ℚ) * factor) = (j : ℤ)) (i0 :: l)
            = List.filter (fun i : ℕ => pyInt ((i : ℚ) * factor) = (j : ℤ)) l := by
          simp [List.filter_cons, hp]
        rw [hfilt, ih _ hlenstep j hj]
        cases (List.filter (fun i : ℕ => pyInt ((i : ℚ) * factor) = (j : ℤ)) l).getLast? with
        | none =>
            simp only [Option.elim]
            exact hstep _
        | some x => rfl

/-- Position `j` of the remapped spectrum holds the value of the last
original bin index mapping to `j`, or zero when no bin maps there (bins
with out-of-range targets are dropped). -/
theorem pitchRemap_getD {K : Type} (z : K) (spec : List K) (factor : ℚ) (hf : 0 < factor)
    (j : ℕ) (hj : j < spec.length) :
    (pitchRemap z spec factor).getD j z
      = (((List.range spec.length).filter
            (fun i : ℕ => pyInt ((i : ℚ) * factor) = (j : ℤ))).getLast?).elim
          z (fun i : ℕ => spec.getD i z) := by
  have h := remapFold_getD z spec factor hf spec.length (List.range spec.length)
      (List.replicate spec.length z) (by simp) j hj
  rw [pitchRemap, h, getD_replicate_self]

theorem pitchRemap_length {K : Type} (z : K) (spec : List K) (factor : ℚ) :
    (pitchRemap z spec factor).length = spec.length := by
  rw [pitchRemap]
  generalize hacc : List.replicate spec.length z = acc
  have hlen : acc.length = spec.length := by rw [← hacc]; simp
  clear hacc
  induction List.range spec.length generalizing acc with
  | nil => simpa using hlen
  | cons i0 l ih =>
      rw [List.foldl_cons]
      apply ih
      split <;> simp [hlen]

theorem filter_range_cast_eq_nil (N j : ℕ) (h : N ≤ j) :
    ((List.range N).filter (fun i : ℕ => (i : ℤ) = (j : ℤ))) = [] := by
  rw [List.filter_eq_nil_iff]
  intro a ha
  have : a < N := List.mem_range.mp ha
  simp only [decide_eq_true_eq, Int.natCast_inj]
  omega

theorem filter_range_cast_eq_singleton (N j : ℕ) (h : j < N) :
    ((List.range N).filter (fun i : ℕ => (i : ℤ) = (j : ℤ))) = [j] := by
  induction N with
  | zero => omega
  | succ N ih =>
      rw [List.range_succ, List.filter_append]
      by_cases hj : j < N
      · rw [ih hj]
        have hN : ([N].filter (fun i : ℕ => (i : ℤ) = (j : ℤ))) = [] := by
          have hne : N ≠ j := by omega
          simp [List.filter, hne]
        rw [hN, List.append_nil]
      · have hje : j = N := by omega
        subst hje
        rw [filter_range_cast_eq_nil j j le_rfl]
        simp

/-- The remap at `factor = 1` is the identity on every bin. -/
theorem pitchRemap_one {K : Type} (z : K) (spec : List K) :
    pitchRemap z spec 1 = spec := by
  apply List.ext_getElem (pitchRemap_length z spec 1)
  intro j h1 h2
  have hD : (pitchRemap z spec 1).getD j z = spec.getD j z := by
    rw [pitchRemap_getD z spec 1 one_pos j h2]
    have hpred : (fun i : ℕ => decide (pyInt ((i : ℚ) * 1) = (j : ℤ)))
        = fun i : ℕ => decide ((i : ℤ) = (j : ℤ)) := by
      funext i
      rw [mul_one, pyInt_natCast]
    rw [hpred, filter_range_cast_eq_singleton spec.length j h2]
    rfl
  rw [List.getD_eq_getElem?_getD, List.getD_eq_getElem?_getD,
      List.getElem?_eq_getElem h1, List.getElem?_eq_getElem h2] at hD
  simpa using hD

/-- C6: the pitch-shift remap preserves the spectrum length `N`; bin `j` of
the new spectrum holds the value of the LAST original bin `i` with
`floor(i * factor) = j` (bins with out-of-range targets are dropped, and on
collisions the last write wins); at `factor = 1` (semitones = 0) the remap
is the identity on every bin; and, whenever the external inverse transform
inverts the forward transform (the defining property of `numpy.fft`), the
pitch shift at `factor = 1` returns the input buffer unchanged. -/
theorem C6_pitch_shift_remap {K : Type} (dsp : DSP K) (factor : ℚ) (hf : 0 < factor)
    (hinv : ∀ x : List ℚ, (dsp.ifft (dsp.fft x)).map dsp.re = x)
    (data : List ℚ) :
    (∀ spec : List K, (pitchRemap dsp.zeroK spec factor).length = spec.length) ∧
    (∀ spec : List K, ∀ j : ℕ, j < spec.length →
      (pitchRemap dsp.zeroK spec factor).getD j dsp.zeroK
        = (((List.range spec.length).filter
              (fun i : ℕ => pyInt ((i : ℚ) * factor) = (j : ℤ))).getLast?).elim
            dsp.zeroK (fun i : ℕ => spec.getD i dsp.zeroK)) ∧
    (∀ spec : List K, pitchRemap dsp.zeroK spec 1 = spec) ∧
    fft_pitch_shift dsp data 1 = data := by
  refine ⟨fun spec => pitchRemap_length dsp.zeroK spec factor,
          fun spec j hj => pitchRemap_getD dsp.zeroK spec factor hf j hj,
          fun spec => pitchRemap_one dsp.zeroK spec, ?_⟩
  rw [fft_pitch_shift, pitchRemap_one]
  exact hinv data

/-- C6, witness: the theorem applied to the identity collaborator instance
and the concrete two-sample buffer `[1, 2]`, evaluated. -/
theorem C6_witness : fft_pitch_shift idDSP [1, 2] 1 = [1, 2] :=
  (C6_pitch_shift_remap idDSP 2 (by norm_num) (fun x => by simp [idDSP]) [1, 2]).2.2.2

/-! ### Claim C7 -/

/-- C7, counterexample.  The claim says display coordinates are clamped and
swapped when `x0 > x1`, so `(7, 3)` would become the selection `(3, 7)`
(width 4 > 1) with playback source `samples[3:7]`.  The code performs no
swap: `xmax - xmin = -4` is not `> 1`, so the selection is CLEARED and the
player is handed the full buffer. -/
theorem C7_counterexample :
    (on_select
        { audio_data := some [1, 2, 3, 4, 5, 6, 7, 8, 9, 10],
          data := [1, 2, 3, 4, 5, 6, 7, 8, 9, 10], view := (0, 10),
          selected_region := none, undo_stack := [], redo_stack := [],
          player_data := [1, 2, 3, 4, 5, 6, 7, 8, 9, 10], initial_frame := 0 } 7 3).selected_region
        = none ∧
    (on_select
        { audio_data := some [1, 2, 3, 4, 5, 6, 7, 8, 9, 10],
          data := [1, 2, 3, 4, 5, 6, 7, 8, 9, 10], view := (0, 10),
          selected_region := none, undo_stack := [], redo_stack := [],
          player_data := [1, 2, 3, 4, 5, 6, 7, 8, 9, 10], initial_frame := 0 } 7 3).player_data
        = [1, 2, 3, 4, 5, 6, 7, 8, 9, 10] ∧
    ([1, 2, 3, 4, 5, 6, 7, 8, 9, 10] : List ℚ) ≠ [4, 5, 6, 7] := by
  refine ⟨?_, ?_, by decide⟩ <;> norm_num [on_select, clear_selection]

/-- C7, amended: `on_select` receives the span's ordered display
coordinates and performs no clamping and no swapping.  If the width
`x1 - x0` is not greater than 1 — which covers `(5, 5)` and every
zero/negative width — the selection is cleared (full buffer back to the
player, buffer and history untouched); otherwise `(x0, x1)` is stored as
given, the playback source becomes `samples[int(x0):int(x1)]` (Python slice
semantics) and the playback initial frame offset becomes `int(x0)`. -/
theorem C7_on_select_behavior (s : EState) (x0 x1 : ℚ) :
    (¬ 1 < x1 - x0 →
      on_select s x0 x1 = clear_selection s ∧
      (on_select s x0 x1).selected_region = none ∧
      (on_select s x0 x1).player_data = s.data ∧
      (on_select s x0 x1).data = s.data ∧
      (on_select s x0 x1).undo_stack = s.undo_stack ∧
      (on_select s x0 x1).redo_stack = s.redo_stack) ∧
    (1 < x1 - x0 →
      (on_select s x0 x1).selected_region = some (x0, x1) ∧
      (on_select s x0 x1).player_data = pySlice s.data (pyInt x0) (pyInt x1) ∧
      (on_select s x0 x1).initial_frame = pyInt x0) := by
  constructor
  · intro h
    simp [on_select, clear_selection, h]
  · intro h
    simp [on_select, h]

/-- C7, witness: the degenerate drag `(5, 5)` clears the selection, while
the wide drag `(2, 6)` stores it and re-routes playback to the sub-range
starting at frame 2. -/
theorem C7_witness :
    (on_select
        { audio_data := some [1, 2, 3, 4, 5, 6, 7, 8, 9, 10],
          data := [1, 2, 3, 4, 5, 6, 7, 8, 9, 10], view := (0, 10),
          selected_region := none, undo_stack := [], redo_stack := [],
          player_data := [1, 2, 3, 4, 5, 6, 7, 8, 9, 10], initial_frame := 0 } 5 5).selected_region
        = none ∧
    (on_select
        { audio_data := some [1, 2, 3, 4, 5, 6, 7, 8, 9, 10],
          data := [1, 2, 3, 4, 5, 6, 7, 8, 9, 10], view := (0, 10),
          selected_region := none, undo_stack := [], redo_stack := [],
          player_data := [1, 2, 3, 4, 5, 6, 7, 8, 9, 10], initial_frame := 0 } 2 6).selected_region
        = some (2, 6) := by
  constructor
  · exact ((C7_on_select_behavior _ 5 5).1 (by norm_num)).2.1
  · exact ((C7_on_select_behavior _ 2 6).2 (by norm_num)).1

/-! ### Claim C8 -/

/-- C8: crop-to-selection replaces the buffer with `samples[start:end]` of
the active selection, crop-out-selection with
`samples[:start] ++ samples[end:]`; both push one `(buffer, view)` history
entry; both are exact no-ops without a selection; a selection spanning
`(0, length)` makes crop-to-selection keep the buffer unchanged; and the
spec scenario — selection `(1, 3)` on the 5-sample buffer `[1,2,3,4,5]`,
crop-out — leaves the 3 samples `[1, 4, 5]`. -/
theorem C8_crop_operations (s : EState) :
    (s.selected_region = none → crop_selected s = s ∧ crop_unselected s = s) ∧
    (∀ x0 x1 : ℚ, s.selected_region = some (x0, x1) →
      (crop_selected s).data = pySlice s.data (pyInt x0) (pyInt x1) ∧
      (crop_unselected s).data
        = pySlice s.data 0 (pyInt x0) ++ pySlice s.data (pyInt x1) (s.data.length : ℤ) ∧
      (crop_selected s).undo_stack = HistEntry.pair s.data s.view :: s.undo_stack ∧
      (crop_unselected s).undo_stack = HistEntry.pair s.data s.view :: s.undo_stack) ∧
    (s.selected_region = some (0, (s.data.length : ℚ)) → (crop_selected s).data = s.data) ∧
    (crop_unselected
        { audio_data := some [1, 2, 3, 4, 5], data := [1, 2, 3, 4, 5], view := (0, 5),
          selected_region := some (1, 3), undo_stack := [], redo_stack := [],
          player_data := [1, 2, 3, 4, 5], initial_frame := 0 }).data = [1, 4, 5] ∧
    ([1, 4, 5] : List ℚ).length = 3 := by
  obtain ⟨a, d, v, sel, u, r, p, fr⟩ := s
  refine ⟨?_, ?_, ?_, by decide, by decide⟩
  · intro h; simp only at h; subst h
    exact ⟨rfl, rfl⟩
  · intro x0 x1 h; simp only at h; subst h
    exact ⟨rfl, rfl, rfl, rfl⟩
  · intro h; simp only at h; subst h
    show pySlice d (pyInt 0) (pyInt (d.length : ℚ)) = d
    rw [pyInt_natCast]
    exact pySlice_full d

/-- C8, witness: the no-selection no-op and the selection `(1, 3)` crop on
`[1,2,3,4,5]`, with the slice evaluated. -/
theorem C8_witness :
    crop_selected
        { audio_data := some [1, 2, 3, 4, 5], data := [1, 2, 3, 4, 5], view := (0, 5),
          selected_region := none, undo_stack := [], redo_stack := [],
          player_data := [1, 2, 3, 4, 5], initial_frame := 0 }
      = { audio_data := some [1, 2, 3, 4, 5], data := [1, 2, 3, 4, 5], view := (0, 5),
          selected_region := none, undo_stack := [], redo_stack := [],
          player_data := [1, 2, 3, 4, 5], initial_frame := 0 } ∧
    (crop_selected
        { audio_data := some [1, 2, 3, 4, 5], data := [1, 2, 3, 4, 5], view := (0, 5),
          selected_region := some (1, 3), undo_stack := [], redo_stack := [],
          player_data := [1, 2, 3, 4, 5], initial_frame := 0 }).data = [2, 3] := by
  constructor
  · exact ((C8_crop_operations _).1 rfl).1
  · exact (((C8_crop_operations _).2.1 1 3 rfl).1).trans (by decide)

/-- C10, witness: the amended statement evaluated on a concrete state with
a bare 3-element top entry. -/
theorem C10_witness :
    undo_last_action { audio_data := some [7], data := [7], view := (0, 1),
                       selected_region := none,
                       undo_stack := [HistEntry.bare [1, 2, 3]], redo_stack := [],
                       player_data := [7], initial_frame := 0 }
      = StepResult.ok
          { audio_data := some [7], data := [7], view := (0, 1),
            selected_region := none, undo_stack := [], redo_stack := [],
            player_data := [7], initial_frame := 0 } :=
  C10_bare_undo_entry _ [1, 2, 3] [] rfl (by decide)

end Epoch123
